import Mathlib

/-!
Verification of the misaki-rs grapheme-to-phoneme engine.

This file gives a shallow embedding of the lexicon resolution engine
(`src/lexicon.rs`), the perceptron tagger's context normalization
(`src/tagger.rs`) and the `g2p` resolution pass (`src/g2p.rs`), and proves
or refutes the frozen behavioural claims about them.

Modelling conventions:
* Rust `HashMap<String, _>` values are association lists `List (String × _)`
  looked up with `lookupA` (first match wins); grown dictionaries use list
  prepending to model `HashMap::extend`'s overwrite semantics.
* Rust `f64` stress values are embedded as `ℚ`: the program only ever
  compares stresses against the constants -1, -0.5, 0, 0.5, 1 and never
  performs arithmetic on them, so the embedding is exact.
* The fractional sort keys `i` / `v - 0.5` of `restress` are scaled by 2 to
  the integers `2*i` / `2*v - 1`, which is also exact.
* Rust byte-length `len()` and byte slicing are modelled at character level
  in the lexicon functions, which is exact on single-byte (ASCII) data — the
  inputs at issue in the lexicon claims.  The byte slice in the third branch
  of `stem_ing` (lexicon.rs line 440) can cut inside a multi-byte character
  and panic, so that function is additionally modelled byte-exactly as
  `stemIngB`, whose explicit panic marker exhibits the panic on `añing`.
* `char::is_alphabetic` is modelled as `Char.isAlpha` (ASCII); in `is_known`
  the subsequent `LEXICON_ORDS` code-point filter makes the results agree on
  all inputs, and elsewhere only ASCII inputs are at issue.
-/

namespace Misaki

/-- Character-wise lowercase, modelling Rust `str::to_lowercase` (exact on ASCII). -/
def toLowerS (s : String) : String := String.mk (s.data.map Char.toLower)

/-- Character-wise uppercase, modelling Rust `str::to_uppercase` (exact on ASCII). -/
def toUpperS (s : String) : String := String.mk (s.data.map Char.toUpper)

/-- First character uppercased, rest kept: the `capitalized` form built in
`grow_dictionary` (whose input is already lowercased). -/
def capitalizeS (s : String) : String :=
  match s.data with
  | [] => ""
  | c :: rest => String.mk (c.toUpper :: rest)

/-- Drop the last `n` characters, modelling Rust slicing `&s[..s.len()-n]`. -/
def dropLastS (s : String) (n : Nat) : String :=
  String.mk (s.data.take (s.data.length - n))

/-- Association-list lookup, modelling `HashMap::get`. -/
def lookupA {α : Type} : List (String × α) → String → Option α
  | [], _ => none
  | (k, v) :: rest, key => if k = key then some v else lookupA rest key

/-- Split on a separator character, modelling Rust `str::split(sep)`. -/
def splitOnChar (sep : Char) : List Char → List (List Char)
  | [] => [[]]
  | c :: rest =>
    let r := splitOnChar sep rest
    if c = sep then [] :: r
    else
      match r with
      | [] => [[c]]
      | h :: t => (c :: h) :: t

/-- The apostrophe character (code point 39). -/
def apostrophe : Char := Char.ofNat 39

/-- Does `l` start with `p`? List-level helper for substring search. -/
def startsWithList : List Char → List Char → Bool
  | [], _ => true
  | _ :: _, [] => false
  | p :: ps, c :: cs => p = c && startsWithList ps cs

/-- Does `l` contain `pat` as a contiguous substring?  Models Rust
`str::contains` with a string pattern. -/
def hasSubstring (pat : List Char) : List Char → Bool
  | [] => startsWithList pat []
  | c :: cs => startsWithList pat (c :: cs) || hasSubstring pat cs

/-- Does `s` start with `pre`?  Kernel-reducible model of Rust
`str::starts_with`. -/
def startsWithS (s pre : String) : Bool := startsWithList pre.data s.data

/-- Does `s` end with `post`?  Kernel-reducible model of Rust
`str::ends_with`. -/
def endsWithS (s post : String) : Bool :=
  startsWithList post.data.reverse s.data.reverse

/-- Drop the first character, modelling Rust `&s[1..]` on ASCII data. -/
def dropFirstS (s : String) : String := String.mk (s.data.drop 1)

/-- UTF-8 byte length, modelling Rust `str::len`. -/
def byteSizeS (s : String) : Nat := s.data.foldl (fun n c => n + c.utf8Size) 0

/-- Is byte offset `n` a character boundary of the character list `l`? -/
def isBoundaryL : List Char → Nat → Bool
  | _, 0 => true
  | [], _ + 1 => false
  | c :: rest, n + 1 =>
    if c.utf8Size ≤ n + 1 then isBoundaryL rest (n + 1 - c.utf8Size) else false

/-- Is byte offset `n` a character boundary of `s`?  Models Rust
`str::is_char_boundary`; a byte slice `&s[..n]` panics exactly when this is
false. -/
def isCharBoundary (s : String) (n : Nat) : Bool := isBoundaryL s.data n

/-- Index of the last occurrence of `c`, modelling Rust `str::rfind(c)`. -/
def lastIdxOf (l : List Char) (c : Char) : Option Nat :=
  match l.reverse.findIdx? (· = c) with
  | some j => some (l.length - 1 - j)
  | none => none

/-- From `src/language.rs`: the supported language variants. -/
inductive Language where
  | EnglishUS
  | EnglishGB
deriving DecidableEq

/-- From `src/lexicon.rs`, `PhonemeEntry`: a dictionary value is either a plain
phoneme string or a tag-keyed map of optional phoneme strings. -/
inductive PhonemeEntry where
  | Simple (ps : String)
  | Tagged (map : List (String × Option String))
deriving DecidableEq

/-- From `src/lexicon.rs`, `TokenContext`. -/
structure TokenContext where
  future_vowel : Option Bool := none
  future_to : Bool := false
deriving DecidableEq

/-- From `src/lexicon.rs`, `Lexicon` (the `cap_stresses` field is the constant
`(0.5, 2.0)` set in `Lexicon::new`). -/
structure Lexicon where
  lang : Language
  golds : List (String × PhonemeEntry)
  silvers : List (String × PhonemeEntry)

/-- The `cap_stresses` pair as set by `Lexicon::new`. -/
def capStresses : ℚ × ℚ := (1/2, 2)

/-- From `src/token.rs`, `MToken` (the timestamp and underscore fields play no part
in the resolution pass and are omitted). -/
structure MToken where
  text : String
  tag : String
  whitespace : String
  phonemes : Option String

/-- The constant `LEXICON_ORDS` from `src/lexicon.rs`. -/
def LEXICON_ORDS : List Nat :=
  [39, 45, 65, 66, 67, 68, 69, 70, 71, 72, 73, 74, 75, 76, 77, 78, 79, 80, 81,
   82, 83, 84, 85, 86, 87, 88, 89, 90, 91, 97, 98, 99, 100, 101, 102, 103, 104,
   105, 106, 107, 108, 109, 110, 111, 112, 113, 114, 115, 116, 117, 118, 119,
   120, 121, 122]

/-- The constant `US_TAUS` from `src/lexicon.rs`. -/
def US_TAUS : List Char := "AIOWYiuæɑəɛɪɹʊʌ".data

/-- The map of `get_add_symbols` from `src/lexicon.rs`. -/
def addSymbols : List (String × String) := [(".", "dot"), ("/", "slash")]

/-- The map of `get_symbols` from `src/lexicon.rs`. -/
def symbols : List (String × String) :=
  [("%", "percent"), ("&", "and"), ("+", "plus"), ("@", "at")]

/-- The vowel set used by `apply_stress` and `restress`. -/
def stressVowels : List Char := "AIOQWYaiuæɑɒɔəɛɜɪʊʌᵻ".data

/-- Embeds `Lexicon::grow_dictionary`: the auxiliary entries generated for one key.
`k.len() < 2` keys are skipped; all-lowercase keys grow their capitalized
form, capitalized keys grow their lowercase form. -/
def growOne (k : String) (v : PhonemeEntry) : List (String × PhonemeEntry) :=
  if k.length < 2 then []
  else
    let lower := toLowerS k
    let capitalized := capitalizeS lower
    if k = lower then (if k ≠ capitalized then [(capitalized, v)] else [])
    else if k = capitalized then [(lower, v)]
    else []

/-- Embeds `Lexicon::grow_dictionary`.  The Rust code builds the auxiliary map `e`
and then runs `result.extend(e)` on the original map, so the entries of `e`
*overwrite* colliding original entries; with first-match-wins association
lists that is `e ++ d`. -/
def growDictionary (d : List (String × PhonemeEntry)) : List (String × PhonemeEntry) :=
  (d.flatMap fun p => growOne p.1 p.2) ++ d

/-- Embeds `Lexicon::get_parent_tag`. -/
def getParentTag (tag : String) : String :=
  if startsWithS tag "VB" then "VERB"
  else if startsWithS tag "NN" then "NOUN"
  else if startsWithS tag "ADV" ∨ startsWithS tag "RB" then "ADV"
  else if startsWithS tag "ADJ" ∨ startsWithS tag "JJ" then "ADJ"
  else tag

/-- Embeds `Lexicon::resolve_phonemes`. -/
def resolvePhonemes (entry : PhonemeEntry) (tag : String) (ctx : Option TokenContext) :
    Option String :=
  match entry with
  | .Simple ps => some ps
  | .Tagged m =>
    let currentTag :=
      match ctx with
      | some c => if c.future_vowel = none ∧ (lookupA m "None").isSome then "None" else tag
      | none => tag
    match lookupA m currentTag with
    | some (some ps) => some ps
    | _ =>
      match lookupA m (getParentTag currentTag) with
      | some (some ps) => some ps
      | _ => (lookupA m "DEFAULT").bind id

/-- The sort keys built by `Lexicon::restress`, scaled by 2: an ordinary
character at index `i` keeps key `2*i`; a stress mark is re-keyed to
`2*v - 1` where `v` is the index of the first vowel at or after it (the Rust
code's `parts[vi].0 - 0.5`). -/
def restressKeys (l : List Char) : List (Int × Char) :=
  l.enum.map fun p =>
    if p.2 = 'ˈ' ∨ p.2 = 'ˌ' then
      match (l.drop p.1).findIdx? (fun vc => stressVowels.contains vc) with
      | some j => ((2 * (p.1 + j) : Int) - 1, p.2)
      | none => ((2 * p.1 : Int), p.2)
    else ((2 * p.1 : Int), p.2)

/-- Embeds `Lexicon::restress`: re-key each stress mark to just before its following
vowel and stably sort all characters by key. -/
def restress (ps : String) : String :=
  String.mk (((restressKeys ps.data).mergeSort fun a b => a.1 ≤ b.1).map (·.2))

/-- Embeds `Lexicon::apply_stress` for a present stress value `s`. -/
def applyStressPos (ps : String) (s : ℚ) : String :=
  if s < -1 then
    String.mk ((ps.data.filter (· ≠ 'ˈ')).filter (· ≠ 'ˌ'))
  else if s = -1 ∨ ((-1/2 ≤ s ∧ s ≤ 0) ∧ ps.data.contains 'ˈ') then
    String.mk ((ps.data.filter (· ≠ 'ˌ')).map fun c => if c = 'ˈ' then 'ˌ' else c)
  else if (s = 0 ∨ s = 1/2 ∨ s = 1) ∧ ¬ps.data.contains 'ˈ' ∧ ¬ps.data.contains 'ˌ' then
    if ¬ps.data.any (fun c => stressVowels.contains c) then ps
    else restress (String.mk ('ˌ' :: ps.data))
  else if s ≥ 1 ∧ ¬ps.data.contains 'ˈ' ∧ ps.data.contains 'ˌ' then
    String.mk (ps.data.map fun c => if c = 'ˌ' then 'ˈ' else c)
  else if s > 1 ∧ ¬ps.data.contains 'ˈ' ∧ ¬ps.data.contains 'ˌ' then
    if ¬ps.data.any (fun c => stressVowels.contains c) then ps
    else restress (String.mk ('ˈ' :: ps.data))
  else ps

/-- Embeds `Lexicon::apply_stress`: a `None` stress returns the input unchanged. -/
def applyStress (ps : String) (stress : Option ℚ) : String :=
  match stress with
  | none => ps
  | some s => applyStressPos ps s

/-- One step of the character loop of `Lexicon::get_nnp`: alphabetic
characters must have a gold entry under their uppercased single-letter key
(otherwise the whole call fails); only `Simple` entries contribute. -/
def getNNPStep (golds : List (String × PhonemeEntry)) (acc : Option (List String))
    (c : Char) : Option (List String) :=
  match acc with
  | none => none
  | some parts =>
    if c.isAlpha then
      match lookupA golds (String.mk [c.toUpper]) with
      | some (.Simple p) => some (parts ++ [p])
      | some _ => some parts
      | none => none
    else some parts

/-- Embeds `Lexicon::get_nnp`: spell a word letter by letter from the gold
single-letter entries, stress at 0, then promote the last secondary mark. -/
def getNNP (lex : Lexicon) (word : String) : Option (String × Int) :=
  match word.data.foldl (getNNPStep lex.golds) (some []) with
  | none => none
  | some parts =>
    if parts.isEmpty then none
    else
      let stressed := applyStress (String.join parts) (some 0)
      match lastIdxOf stressed.data 'ˌ' with
      | some idx => some (String.mk (stressed.data.set idx 'ˈ'), 3)
      | none => some (stressed, 3)

/-- Embeds `Lexicon::lookup`: probe gold (rating 4) then silver (rating 3), with
the all-uppercase fold and the NNP initialism fallback, and finally apply
the stress target. -/
def lookup (lex : Lexicon) (word tag : String) (stress : Option ℚ)
    (ctx : Option TokenContext) : Option (String × Int) :=
  let cw : String × Bool :=
    if word = toUpperS word ∧ (lookupA lex.golds word).isNone
    then (toLowerS word, tag = "NNP") else (word, false)
  let currentWord := cw.1
  let isNnp := cw.2
  let g : Option String × Int :=
    match lookupA lex.golds currentWord with
    | some entry => (resolvePhonemes entry tag ctx, 4)
    | none => (none, 0)
  let s : Option String × Int :=
    if g.1.isNone ∧ ¬isNnp then
      match lookupA lex.silvers currentWord with
      | some entry => (resolvePhonemes entry tag ctx, 3)
      | none => g
    else g
  let f : Option String × Int :=
    if (s.1.isNone ∨ (isNnp ∧ ¬(s.1.getD "").data.contains 'ˈ')) ∧ isNnp then
      match getNNP lex currentWord with
      | some pr => (some pr.1, pr.2)
      | none => s
    else s
  f.1.map fun p => (applyStress p stress, f.2)

/-- Embeds `Lexicon::is_known`. -/
def isKnown (lex : Lexicon) (word : String) (_tag : String) : Bool :=
  if (lookupA lex.golds word).isSome ∨ (lookupA symbols word).isSome ∨
      (lookupA lex.silvers word).isSome then true
  else if ¬word.data.all Char.isAlpha then false
  else if ¬word.data.all (fun c => LEXICON_ORDS.contains c.toNat) then false
  else if word.length = 1 then true
  else if word = toUpperS word ∧ (lookupA lex.golds (toLowerS word)).isSome then true
  else if word.length > 1 ∧
      (let rest := String.mk (word.data.drop 1); rest = toUpperS rest) then true
  else false

/-- Embeds `Lexicon::append_s`. -/
def appendS (lang : Language) (stem : String) : String :=
  match stem.data.getLast? with
  | none => ""
  | some last =>
    if "ptkfθ".data.contains last then stem ++ "s"
    else if "szʃʒʧʤ".data.contains last then
      stem ++ (if lang = Language.EnglishGB then "ɪ" else "ᵻ") ++ "z"
    else stem ++ "z"

/-- Embeds `Lexicon::stem_s`. -/
def stemS (lex : Lexicon) (word tag : String) (stress : Option ℚ)
    (ctx : Option TokenContext) : Option (String × Int) :=
  let lower := toLowerS word
  if lower.length < 3 ∨ ¬endsWithS lower "s" then none
  else
    let stem : Option String :=
      if ¬endsWithS lower "ss" ∧ isKnown lex (dropLastS lower 1) tag then
        some (dropLastS lower 1)
      else if (endsWithS lower "'s" ∨
          (lower.length > 4 ∧ endsWithS lower "es" ∧ ¬endsWithS lower "ies")) ∧
          isKnown lex (dropLastS lower 2) tag then
        some (dropLastS lower 2)
      else if lower.length > 4 ∧ endsWithS lower "ies" ∧
          isKnown lex (dropLastS lower 3 ++ "y") tag then
        some (dropLastS lower 3 ++ "y")
      else none
    match stem with
    | none => none
    | some st => (lookup lex st tag stress ctx).map fun pr => (appendS lex.lang pr.1, pr.2)

/-- Embeds `Lexicon::append_ed`. -/
def appendEd (lang : Language) (stem : String) : String :=
  match stem.data.getLast? with
  | none => ""
  | some last =>
    let british := lang = Language.EnglishGB
    if "pkfθʃsʧ".data.contains last then stem ++ "t"
    else if last = 'd' then stem ++ (if british then "ɪ" else "ᵻ") ++ "d"
    else if last ≠ 't' then stem ++ "d"
    else if british ∨ stem.length < 2 then stem ++ "ɪd"
    else
      match stem.data.reverse with
      | _ :: secondLast :: _ =>
        if US_TAUS.contains secondLast then dropLastS stem 1 ++ "ɾᵻd"
        else stem ++ "ᵻd"
      | _ => stem ++ "ᵻd"

/-- Embeds `Lexicon::stem_ed`. -/
def stemEd (lex : Lexicon) (word tag : String) (stress : Option ℚ)
    (ctx : Option TokenContext) : Option (String × Int) :=
  let lower := toLowerS word
  if lower.length < 4 ∨ ¬endsWithS lower "d" then none
  else
    let stem : Option String :=
      if ¬endsWithS lower "dd" ∧ isKnown lex (dropLastS lower 1) tag then
        some (dropLastS lower 1)
      else if lower.length > 4 ∧ endsWithS lower "ed" ∧ ¬endsWithS lower "eed" ∧
          isKnown lex (dropLastS lower 2) tag then
        some (dropLastS lower 2)
      else none
    match stem with
    | none => none
    | some st => (lookup lex st tag stress ctx).map fun pr => (appendEd lex.lang pr.1, pr.2)

/-- Embeds `Lexicon::append_ing`. -/
def appendIng (lang : Language) (stem : String) : Option String :=
  if stem = "" then none
  else
    let british := lang = Language.EnglishGB
    if british ∧ (stem.data.getLast? = some 'ə' ∨ stem.data.getLast? = some 'ː') then none
    else
      -- last char is 't' and the char before it is a tap vowel
      let tap : Bool :=
        match stem.data.reverse with
        | 't' :: secondLast :: _ => US_TAUS.contains secondLast
        | _ => false
      if ¬british ∧ stem.length > 1 ∧ tap then some (dropLastS stem 1 ++ "ɾɪŋ")
      else some (stem ++ "ɪŋ")

/-- Embeds `Lexicon::stem_ing`.  Note the third branch of the Rust code: it tests
the *last two characters of the shortened stem* `lower[..len-4]` for a
doubled consonant (or `ck`), and on success returns `append_ing` applied to
that orthographic stem together with the rating of its lookup. -/
def stemIng (lex : Lexicon) (word tag : String) (stress : Option ℚ)
    (ctx : Option TokenContext) : Option (String × Int) :=
  let lower := toLowerS word
  if lower.length < 5 ∨ ¬endsWithS lower "ing" then none
  else if lower.length > 5 ∧ isKnown lex (dropLastS lower 3) tag then
    (lookup lex (dropLastS lower 3) tag stress ctx).bind fun pr =>
      (appendIng lex.lang pr.1).map fun q => (q, pr.2)
  else if isKnown lex (dropLastS lower 3 ++ "e") tag then
    (lookup lex (dropLastS lower 3 ++ "e") tag stress ctx).bind fun pr =>
      (appendIng lex.lang pr.1).map fun q => (q, pr.2)
  else if lower.length > 5 then
    let sc := dropLastS lower 4
    if isKnown lex sc tag then
      match sc.data.reverse with
      | last :: secondLast :: _ =>
        if (last = secondLast ∧ "bcdgklmnprstvxz".data.contains last) ∨
            (last = 'k' ∧ secondLast = 'c') then
          match appendIng lex.lang sc, lookup lex sc tag stress ctx with
          | some q, some pr => some (q, pr.2)
          | _, _ => none
        else none
      | _ => none
    else none
  else none

/-- Byte-exact model of `Lexicon::stem_ing` (lexicon.rs lines 422-464).
Rust takes byte lengths and byte slices of `lower` here.  Because `lower`
ends with the three one-byte characters `ing`, the `len-3` slices of the
first two branches always cut at a character boundary and equal the
character-level `dropLastS lower 3`; but the third branch evaluates
`&lower[..lower.len() - 4]` (line 440) unconditionally on entry, which
panics whenever the character before `ing` is not a single byte.  Here
`some r` models a normal return of `r` and `none` models that panic; when
the boundary holds the slice drops exactly the four characters `_ing`.  On
all-ASCII input this function is `some` of the character-level `stemIng`. -/
def stemIngB (lex : Lexicon) (word tag : String) (stress : Option ℚ)
    (ctx : Option TokenContext) : Option (Option (String × Int)) :=
  let lower := toLowerS word
  let blen := byteSizeS lower
  if blen < 5 ∨ ¬endsWithS lower "ing" then some none
  else if blen > 5 ∧ isKnown lex (dropLastS lower 3) tag then
    some ((lookup lex (dropLastS lower 3) tag stress ctx).bind fun pr =>
      (appendIng lex.lang pr.1).map fun q => (q, pr.2))
  else if isKnown lex (dropLastS lower 3 ++ "e") tag then
    some ((lookup lex (dropLastS lower 3 ++ "e") tag stress ctx).bind fun pr =>
      (appendIng lex.lang pr.1).map fun q => (q, pr.2))
  else if blen > 5 then
    if ¬isCharBoundary lower (blen - 4) then none
    else
      let sc := dropLastS lower 4
      some (if isKnown lex sc tag then
        match sc.data.reverse with
        | last :: secondLast :: _ =>
          if (last = secondLast ∧ "bcdgklmnprstvxz".data.contains last) ∨
              (last = 'k' ∧ secondLast = 'c') then
            match appendIng lex.lang sc, lookup lex sc tag stress ctx with
            | some q, some pr => some (q, pr.2)
            | _, _ => none
          else none
        | _ => none
      else none)
  else some none

/-- Embeds `Lexicon::get_special_case`. -/
def getSpecialCase (lex : Lexicon) (word tag : String) (stress : Option ℚ)
    (ctx : Option TokenContext) : Option (String × Int) :=
  if tag = "ADD" ∧ (lookupA addSymbols word).isSome then
    lookup lex ((lookupA addSymbols word).getD "") "NN" (some (-(1/2))) ctx
  else if (lookupA symbols word).isSome then
    lookup lex ((lookupA symbols word).getD "") "NN" none ctx
  else if word.data.contains '.' ∧ (word.data.filter (· ≠ '.')).all Char.isAlpha then
    if (((splitOnChar '.' word.data).map List.length).max?.getD 0) < 3 then
      getNNP lex word
    else none
  else if word = "a" ∨ word = "A" then
    some (if tag = "DT" then "ɐ" else "ˈA", 4)
  else if word = "am" ∨ word = "Am" ∨ word = "AM" then
    if startsWithS tag "NN" then getNNP lex word
    else if ctx.isNone ∨ (ctx.bind (·.future_vowel)).isNone ∨ word ≠ "am" ∨
        (stress.map fun s => decide ((0:ℚ) < s)).getD false then
      match lookupA lex.golds "am" with
      | some (.Simple ps) => some (ps, 4)
      | _ => some ("ɐm", 4)
    else some ("ɐm", 4)
  else if word = "an" ∨ word = "An" ∨ word = "AN" then
    if word = "AN" ∧ startsWithS tag "NN" then getNNP lex word
    else some ("ɐn", 4)
  else if word = "I" ∧ tag = "PRP" then some ("ˌI", 4)
  else if (word = "by" ∨ word = "By" ∨ word = "BY") ∧ getParentTag tag = "ADV" then
    some ("bˈI", 4)
  else if word = "to" ∨ word = "To" ∨ (word = "TO" ∧ (tag = "TO" ∨ tag = "IN")) then
    match lookupA lex.golds "to" with
    | some (.Simple ps) =>
      some ((match ctx.bind (·.future_vowel) with
             | none => ps
             | some false => "tə"
             | some true => "tʊ"), 4)
    | _ => none
  else if word = "in" ∨ word = "In" ∨ (word = "IN" ∧ tag ≠ "NNP") then
    let fv := ctx.bind (·.future_vowel)
    let mark := if fv.isNone ∨ tag ≠ "IN" then "ˈ" else ""
    some (mark ++ "ɪn", 4)
  else if word = "the" ∨ word = "The" ∨ (word = "THE" ∧ tag = "DT") then
    some (if ctx.bind (·.future_vowel) = some true then "ði" else "ðə", 4)
  else if tag = "IN" ∧ (toLowerS word = "vs" ∨ toLowerS word = "vs.") then
    lookup lex "versus" "NN" none ctx
  else if word = "used" ∨ word = "Used" ∨ word = "USED" then
    let vbd : Option (String × Int) :=
      if (tag = "VBD" ∨ tag = "JJ") ∧ (ctx.map (·.future_to)).getD false then
        match lookupA lex.golds "used" with
        | some (.Tagged m) =>
          match lookupA m "VBD" with
          | some (some ps) => some (ps, 4)
          | _ => none
        | _ => none
      else none
    match vbd with
    | some r => some r
    | none =>
      match lookupA lex.golds "used" with
      | some (.Tagged m) =>
        match lookupA m "DEFAULT" with
        | some (some ps) => some (ps, 4)
        | _ => none
      | _ => none
  else none

/-- Embeds `Lexicon::get_word`: special case, then the case-fold decision, then
known-word lookup, possessives, and the three stemmers.  The Rust stress
argument of the final `stem_ing` call is `Some(0.5).or(stress)`, which is
always `Some(0.5)`. -/
def getWord (lex : Lexicon) (word tag : String) (stress : Option ℚ)
    (ctx : Option TokenContext) : Option (String × Int) :=
  match getSpecialCase lex word tag stress ctx with
  | some r => some r
  | none =>
    let wl := toLowerS word
    let currentWord :=
      if word.length > 1 ∧ (word.data.filter (· ≠ apostrophe)).all Char.isAlpha ∧
          word ≠ wl ∧ (tag ≠ "NNP" ∨ word.length > 7) ∧
          (lookupA lex.golds word).isNone ∧ (lookupA lex.silvers word).isNone ∧
          (word = toUpperS word ∨
            (let rest := String.mk (word.data.drop 1); rest = toLowerS rest)) ∧
          ((lookupA lex.golds wl).isSome ∨ (lookupA lex.silvers wl).isSome ∨
            (stemS lex wl tag stress ctx).isSome ∨
            (stemEd lex wl tag stress ctx).isSome ∨
            (stemIng lex wl tag stress ctx).isSome)
      then wl else word
    if isKnown lex currentWord tag then lookup lex currentWord tag stress ctx
    else if endsWithS currentWord "s'" ∧ isKnown lex (dropLastS currentWord 2) tag then
      lookup lex (dropLastS currentWord 2 ++ "'s") tag stress ctx
    else if endsWithS currentWord "'" ∧ isKnown lex (dropLastS currentWord 1) tag then
      lookup lex (dropLastS currentWord 1) tag stress ctx
    else
      match stemS lex currentWord tag stress ctx with
      | some r => some r
      | none =>
        match stemEd lex currentWord tag stress ctx with
        | some r => some r
        | none => stemIng lex currentWord tag (some (1/2)) ctx

/-- From `languages/english.rs`, `English::apply_rules`: the three stemmers with
no stress and no context, first success wins. -/
def applyRules (lex : Lexicon) (word tag : String) : Option String :=
  match stemS lex word tag none none with
  | some pr => some pr.1
  | none =>
    match stemEd lex word tag none none with
    | some pr => some pr.1
    | none => (stemIng lex word tag none none).map (·.1)

/-- Does the string parse as Rust `usize`: optional leading `+`, then one or
more ASCII digits (4-character tokens cannot overflow). -/
def parsesAsUsize (s : String) : Bool :=
  let digits := if startsWithS s "+" then dropFirstS s else s
  digits ≠ "" && digits.data.all Char.isDigit

/-- The per-word rewrite `PerceptronTagger::tag` applies when building the
padded context.  Note the first test is Rust `token.contains("'-'")`: it
looks for the literal three-character substring apostrophe-hyphen-apostrophe,
not for a hyphen. -/
def normalizeToken (token : String) : String :=
  if hasSubstring "'-'".data token.data ∧ ¬startsWithS token "-" then "!HYPHEN"
  else if parsesAsUsize token ∧ byteSizeS token = 4 then "!YEAR"
  else if (token.data.head?.map Char.isDigit).getD false then "!DIGITS"
  else token

/-- The padded context `[-START-, -START2-, w₀, …, wₙ₋₁, -END-, -END2-]`
built by `PerceptronTagger::tag`. -/
def buildContext (words : List String) : List String :=
  "-START-" :: "-START2-" :: words.map normalizeToken ++ ["-END-", "-END2-"]

/-- The diacritic normalization map of the single-character fallback in
`G2P::g2p`. -/
def normChar (c : Char) : Char :=
  if c = 'é' ∨ c = 'è' ∨ c = 'ê' ∨ c = 'ë' then 'e'
  else if c = 'á' ∨ c = 'à' ∨ c = 'â' ∨ c = 'ä' ∨ c = 'ã' ∨ c = 'å' then 'a'
  else if c = 'í' ∨ c = 'ì' ∨ c = 'î' ∨ c = 'ï' then 'i'
  else if c = 'ó' ∨ c = 'ò' ∨ c = 'ô' ∨ c = 'ö' ∨ c = 'õ' then 'o'
  else if c = 'ú' ∨ c = 'ù' ∨ c = 'û' ∨ c = 'ü' then 'u'
  else if c = 'ñ' then 'n'
  else if c = 'ç' then 'c'
  else if c = '—' ∨ c = '–' then ' '
  else c

/-- Rust `char::is_ascii_punctuation`. -/
def isAsciiPunct (c : Char) : Bool :=
  (33 ≤ c.toNat ∧ c.toNat ≤ 47) ∨ (58 ≤ c.toNat ∧ c.toNat ≤ 64) ∨
  (91 ≤ c.toNat ∧ c.toNat ≤ 96) ∨ (123 ≤ c.toNat ∧ c.toNat ≤ 126)

/-- Rust `str::parse::<i64>`: optional sign, one or more digits, within the
64-bit signed range. -/
def parseI64 (s : String) : Option Int :=
  let sd : Int × String :=
    if startsWithS s "-" then (-1, dropFirstS s)
    else if startsWithS s "+" then (1, dropFirstS s)
    else (1, s)
  if sd.2 ≠ "" ∧ sd.2.data.all Char.isDigit then
    let n : Nat := sd.2.data.foldl (fun a c => a * 10 + (c.toNat - 48)) 0
    let v : Int := sd.1 * n
    if -(2 ^ 63) ≤ v ∧ v ≤ 2 ^ 63 - 1 then some v else none
  else none

/-- Embeds `G2P::is_number`: strip commas, then parse as `i64`. -/
def isNumber (word : String) : Bool :=
  (parseI64 (String.mk (word.data.filter (· ≠ ',')))).isSome

/-- Embeds `G2P::convert_number`, with the external `Num2Words` integer-to-words
conversion abstracted as the oracle `n2w`. -/
def convertNumber (n2w : Int → Option String) (word : String) : String :=
  match parseI64 (String.mk (word.data.filter (· ≠ ','))) with
  | some v =>
    match n2w v with
    | some spoken => spoken
    | none => word
  | none => word

/-- The unknown sentinel `G2P.unk`. -/
def unk : String := "❓"

/-- The orthographic vowel/consonant sets used by the context update at the
end of each `G2P::g2p` loop iteration. -/
def g2pVowels : List Char := "AIOQWYaiuæɑɒɔəɛɜɪʊʌᵻ".data

/-- Consonant set of the same context update. -/
def g2pConsonants : List Char := "bdfhjklmnpstvwzðŋɡɹɾʃʒʤʧθ".data

/-- Embeds `G2P::g2p` lines 156-181: `get_word`, then (if still unresolved) the
hyphen split or the number expansion.  Recursive `g2p` calls on derived
strings are abstracted as the total oracle `rec`. -/
def resolveStep1 (lex : Lexicon) (rec : String → String) (n2w : Int → Option String)
    (word tag : String) (stress : Option ℚ) (ctx : TokenContext) : Option String :=
  let p0 : Option String := (getWord lex word tag stress (some ctx)).map (·.1)
  if p0.isNone then
    if word.data.contains '-' ∧ word.data.length > 1 then
      some (String.intercalate " "
        (((splitOnChar '-' word.data).filter (· ≠ [])).map fun part =>
          rec (String.mk part)))
    else if isNumber word then
      let spoken := convertNumber n2w word
      if spoken ≠ word then some (rec spoken) else none
    else none
  else p0

/-- Embeds `G2P::g2p` lines 183-187: language rules on a still-unresolved token. -/
def resolveStep2 (lex : Lexicon) (rec : String → String) (n2w : Int → Option String)
    (word tag : String) (stress : Option ℚ) (ctx : TokenContext) : Option String :=
  let p1 := resolveStep1 lex rec n2w word tag stress ctx
  if p1.isNone then applyRules lex word tag else p1

/-- Embeds `G2P::g2p` lines 189-231: the final fallback for a still-unresolved
token: character-by-character spell-out for multi-character words, else
diacritic normalization and retry, else a space for ASCII punctuation and
dashes, else the unknown sentinel. -/
def resolveFallback (rec : String → String) (word : String) : Option String :=
  if word.data.length > 1 then
    some (String.intercalate " " (word.data.map fun c => rec (String.mk [c])))
  else
    -- `normalized` in the Rust code
    if String.mk (word.data.map normChar) ≠ word then
      some (rec (String.mk (word.data.map normChar)))
    else if word.data.length = 1 then
      match word.data with
      | c :: _ =>
        if isAsciiPunct c ∨ "—–…".data.contains c then some " " else some unk
      | [] => some unk
    else some unk

/-- The complete per-token resolution chain of `G2P::g2p` (lines 156-232). -/
def resolveToken (lex : Lexicon) (rec : String → String) (n2w : Int → Option String)
    (word tag : String) (stress : Option ℚ) (ctx : TokenContext) : Option String :=
  let p2 := resolveStep2 lex rec n2w word tag stress ctx
  if p2.isNone then resolveFallback rec word else p2

/-- The reverse-order resolution loop of `G2P::g2p` (lines 124-250),
processed by structural recursion from the right.  Returns the resolved
tokens together with the context that step (d) of the leftmost processed
iteration prepared for the token before it. -/
def g2pAux (lex : Lexicon) (rec : String → String) (n2w : Int → Option String) :
    List MToken → List MToken × TokenContext
  | [] => ([], {})
  | tk :: rest =>
    let r := g2pAux lex rec n2w rest
    -- lines 138-153: override the phoneme-derived context with the
    -- orthographic heuristic on the next token's text
    let ctx : TokenContext :=
      match rest with
      | [] => r.2
      | nxt :: _ =>
        let c1 :=
          match nxt.text.data.head? with
          | some fc =>
            if "aeiou".data.contains fc.toLower then
              { r.2 with future_vowel := some true }
            else if fc.isAlpha then { r.2 with future_vowel := some false }
            else r.2
          | none => r.2
        if toLowerS nxt.text = "to" then { c1 with future_to := true } else c1
    -- lines 127-135: capitalization-derived stress
    let stress : Option ℚ :=
      if tk.text = toLowerS tk.text then none
      else some (if tk.text = toUpperS tk.text then capStresses.2 else capStresses.1)
    -- lines 156-232: resolve the token unless it already has phonemes
    let tk' : MToken :=
      if tk.phonemes.isNone then
        { tk with phonemes := resolveToken lex rec n2w tk.text tk.tag stress ctx }
      else tk
    -- lines 236-249: context for the previous token from the first
    -- classifiable phoneme character
    let carry : TokenContext :=
      match tk'.phonemes with
      | some ph =>
        match ph.data.find? (fun c => g2pVowels.contains c || g2pConsonants.contains c) with
        | some c => { future_vowel := some (g2pVowels.contains c), future_to := false }
        | none => {}
      | none => {}
    (tk' :: r.1, carry)

/-- The token list produced by the `G2P::g2p` resolution pass. -/
def g2pTokens (lex : Lexicon) (rec : String → String) (n2w : Int → Option String)
    (tokens : List MToken) : List MToken :=
  (g2pAux lex rec n2w tokens).1

/-- The output string assembled by `G2P::g2p` (lines 252-255): each token's
phonemes (or the unknown sentinel) followed by its trailing whitespace. -/
def g2pResult (lex : Lexicon) (rec : String → String) (n2w : Int → Option String)
    (tokens : List MToken) : String :=
  String.join ((g2pTokens lex rec n2w tokens).map fun tk =>
    tk.phonemes.getD unk ++ tk.whitespace)

/-- Parent-tag mapping as worded by the specification: tags starting `VB`
map to `VERB`, starting `NN` to `NOUN`, starting `ADV` or `RB` to `ADV`,
starting `ADJ` or `JJ` to `ADJ`, any other tag to itself. -/
def getParentTagSpec (tag : String) : String :=
  if startsWithS tag "VB" then "VERB"
  else if startsWithS tag "NN" then "NOUN"
  else if startsWithS tag "ADV" then "ADV"
  else if startsWithS tag "RB" then "ADV"
  else if startsWithS tag "ADJ" then "ADJ"
  else if startsWithS tag "JJ" then "ADJ"
  else tag

/-- Tag dispatch on a tagged entry as worded by the specification: if the
context's future vowel is unknown and the entry contains the key `None`,
replace the tag by `None`; then try the key itself, then its parent tag,
then `DEFAULT`. -/
def resolvePhonemesSpec (m : List (String × Option String)) (tag : String)
    (ctx : Option TokenContext) : Option String :=
  let effTag :=
    match ctx with
    | some c =>
      if c.future_vowel.isNone ∧ (lookupA m "None").isSome then "None" else tag
    | none => tag
  match lookupA m effTag with
  | some (some ps) => some ps
  | _ =>
    match lookupA m (getParentTagSpec effTag) with
    | some (some ps) => some ps
    | _ =>
      match lookupA m "DEFAULT" with
      | some (some ps) => some ps
      | _ => none

/-! ## Concrete lexicons used by witnesses and counterexamples -/

/-- The empty United States lexicon. -/
def lex0 : Lexicon := ⟨Language.EnglishUS, [], []⟩

/-- A one-entry gold lexicon mapping `run` to its phonemes. -/
def lexRun : Lexicon := ⟨Language.EnglishUS, [("run", PhonemeEntry.Simple "ɹˈʌn")], []⟩

/-! ## Claims -/

/-- C1 (code bug): `g2p` does not return normally on every input — it can
panic.  On the input `añing` (a single letter-run token), `get_word` matches
no special case, `is_known` rejects the word (`ñ` fails the `LEXICON_ORDS`
filter), the possessive checks and the `-s`/`-ed` stemmers decline, so the
chain reaches `stem_ing` (with stress `Some(0.5)`); its first two branches
fail (`añ` and `añe` are unknown) and its third branch then evaluates the
byte slice `&lower[..lower.len() - 4]` — here `&"añing"[..2]`, and byte
offset 2 falls inside the two-byte `ñ`, so the Rust slice panics with a
char-boundary error (lexicon.rs line 440).  In the byte-exact `stemIngB`,
`none` is that panic.  The conjuncts below trace this path. -/
theorem c1_stem_ing_byte_boundary_panic :
    toLowerS "añing" = "añing" ∧
    getSpecialCase lex0 "añing" "NN" none none = none ∧
    isKnown lex0 "añing" "NN" = false ∧
    endsWithS "añing" "s'" = false ∧
    endsWithS "añing" "'" = false ∧
    stemS lex0 "añing" "NN" none none = none ∧
    stemEd lex0 "añing" "NN" none none = none ∧
    byteSizeS "añing" = 6 ∧
    isKnown lex0 "añ" "NN" = false ∧
    isKnown lex0 "añe" "NN" = false ∧
    isCharBoundary "añing" 2 = false ∧
    stemIngB lex0 "añing" "NN" (some (1/2)) none = none := by
  refine ⟨by decide, by decide, by decide, by decide, by decide, by decide,
    by decide, by decide, by decide, by decide, by decide, by decide⟩

/-- C2 counterexample: `is_known` accepts the unlisted single letter `q`
(any single alphabetic character passes), yet `get_word` returns nothing for
it, so `is_known(w) = true` does not imply that `get_word` returns
phonemes. -/
theorem c2_counterexample :
    isKnown lex0 "q" "NN" = true ∧ getWord lex0 "q" "NN" none none = none := by
  constructor
  · decide
  · decide

/-- C3 (code bug): `grow_dictionary` runs `HashMap::extend` with the grown
entries, so an alternate-case key that collides with an original key *does*
overwrite that key's entry: growing `{polish ↦ A, Polish ↦ B}` leaves
`Polish ↦ A` and `polish ↦ B`, both swapped. -/
theorem c3_grow_dictionary_overwrites :
    lookupA (growDictionary
      [("polish", PhonemeEntry.Simple "pˈɑlɪʃ"), ("Polish", PhonemeEntry.Simple "pˈoʊlɪʃ")])
      "Polish" = some (PhonemeEntry.Simple "pˈɑlɪʃ") ∧
    lookupA (growDictionary
      [("polish", PhonemeEntry.Simple "pˈɑlɪʃ"), ("Polish", PhonemeEntry.Simple "pˈoʊlɪʃ")])
      "polish" = some (PhonemeEntry.Simple "pˈoʊlɪʃ") := by
  constructor
  · decide
  · decide

/-- C8 (code bug): for `running` with a lexicon that knows `run` (and not
`runn` or `runne`), `stem_ing` returns nothing: the third branch tests the
last two characters of the shortened stem `run` (`u`,`n`) for a doubled
consonant instead of the doubled pair before `ing`, so the branch the code's
own comment documents (`([bcdgklmnprstvxz])\1ing$|cking$`) never fires. -/
theorem c8_stem_ing_doubled_bug :
    isKnown lexRun "run" "VBG" = true ∧
    isKnown lexRun "runn" "VBG" = false ∧
    isKnown lexRun "runne" "VBG" = false ∧
    stemIng lexRun "running" "VBG" none none = none := by
  refine ⟨by decide, by decide, by decide, by decide⟩

/-- C9 (code bug): the tagger's context rewrite looks for the literal
three-character substring apostrophe-hyphen-apostrophe, not for a hyphen, so
`well-known` — which contains an internal hyphen — is kept as itself in the
padded context instead of being rewritten to `!HYPHEN`. -/
theorem c9_hyphen_context_bug :
    "well-known".data.contains '-' = true ∧
    startsWithS "well-known" "-" = false ∧
    buildContext ["well-known"] =
      ["-START-", "-START2-", "well-known", "-END-", "-END2-"] := by
  refine ⟨by decide, by decide, by decide⟩

/-- C10: applying no stress target is the identity on phoneme strings. -/
theorem c10_apply_stress_none_id (ps : String) : applyStress ps none = ps := rfl

/-- The keyed list built by `restress` projects back to the original
characters: re-keying never changes a character. -/
theorem restressKeys_map_snd (l : List Char) : (restressKeys l).map (·.2) = l := by
  unfold restressKeys
  conv_rhs => rw [← List.enum_map_snd l]
  rw [List.map_map]
  apply List.map_congr_left
  intro p _
  dsimp only [Function.comp]
  split
  · split <;> rfl
  · rfl

/-- The `restress` pass permutes the characters of its input. -/
theorem restress_perm (ps : String) : (restress ps).data.Perm ps.data := by
  have h1 : (((restressKeys ps.data).mergeSort fun a b => a.1 ≤ b.1)).Perm
      (restressKeys ps.data) := List.mergeSort_perm _ _
  have h2 := h1.map (fun x : Int × Char => x.2)
  rw [restressKeys_map_snd] at h2
  exact h2

/-- C5: on a phoneme string with a vowel and no stress marks, stress target
2 produces exactly one primary stress mark. -/
theorem c5_apply_stress_two_primary (ps : String)
    (hv : ps.data.any (fun c => stressVowels.contains c) = true)
    (hp : ps.data.contains 'ˈ' = false)
    (hs : ps.data.contains 'ˌ' = false) :
    (applyStress ps (some 2)).data.count 'ˈ' = 1 := by
  show (applyStressPos ps 2).data.count 'ˈ' = 1
  unfold applyStressPos
  rw [if_neg (by norm_num),
      if_neg (by rintro (h | ⟨⟨-, h⟩, -⟩) <;> norm_num at h),
      if_neg (by rintro ⟨h | h | h, -⟩ <;> norm_num at h),
      if_neg (by rintro ⟨-, -, h⟩; rw [hs] at h; exact Bool.false_ne_true h),
      if_pos ⟨by norm_num, by rw [hp]; exact Bool.false_ne_true,
        by rw [hs]; exact Bool.false_ne_true⟩,
      if_neg (fun h => h hv)]
  rw [(restress_perm (String.mk ('ˈ' :: ps.data))).count_eq]
  show ('ˈ' :: ps.data).count 'ˈ' = 1
  rw [List.count_cons_self]
  have h0 : ps.data.count 'ˈ' = 0 := List.count_eq_zero.mpr (by simpa using hp)
  omega

/-- C5 witness: `ɪn` has a vowel and no stress marks, and stress target 2
puts exactly one primary mark on it. -/
theorem c5_witness :
    ("ɪn".data.any (fun c => stressVowels.contains c) = true) ∧
    ("ɪn".data.contains 'ˈ' = false) ∧ ("ɪn".data.contains 'ˌ' = false) ∧
    (applyStress "ɪn" (some 2)).data.count 'ˈ' = 1 :=
  ⟨by decide, by decide, by decide,
   c5_apply_stress_two_primary "ɪn" (by decide) (by decide) (by decide)⟩

/-- Filtering twice by the same pair of predicates is the same as filtering
once. -/
theorem filter_filter_self {α : Type} (p q : α → Bool) (l : List α) :
    (((l.filter p).filter q).filter p).filter q = (l.filter p).filter q := by
  have h1 : ((l.filter p).filter q).filter p = (l.filter p).filter q :=
    List.filter_eq_self.mpr fun a ha => (List.mem_filter.mp (List.mem_filter.mp ha).1).2
  rw [h1]
  exact List.filter_eq_self.mpr fun a ha => (List.mem_filter.mp ha).2

/-- C6: stripping all primary and secondary stress marks (stress target
below -1) is idempotent. -/
theorem c6_strip_idempotent (ps : String) :
    applyStress (applyStress ps (some (-2))) (some (-2)) = applyStress ps (some (-2)) := by
  show applyStressPos (applyStressPos ps (-2)) (-2) = applyStressPos ps (-2)
  have hlt : ((-2 : ℚ) < -1) := by norm_num
  unfold applyStressPos
  rw [if_pos hlt, if_pos hlt]
  congr 1
  exact filter_filter_self _ _ ps.data

/-- C2 amended: a word with a `Simple` gold entry is resolved by `get_word`
for every tag, stress `None`, and every context (whereas `is_known` alone
does not guarantee resolution). -/
theorem c2_gold_simple_get_word_some (lex : Lexicon) (w t ps : String)
    (ctx : Option TokenContext)
    (h : lookupA lex.golds w = some (PhonemeEntry.Simple ps)) :
    (getWord lex w t none ctx).isSome := by
  cases hsc : getSpecialCase lex w t none ctx with
  | some r => simp [getWord, hsc]
  | none => simp [getWord, hsc, isKnown, lookup, resolvePhonemes, h]

/-- C2 witness: `run` has a `Simple` gold entry in `lexRun` and `get_word`
resolves it. -/
theorem c2_witness :
    lookupA lexRun.golds "run" = some (PhonemeEntry.Simple "ɹˈʌn") ∧
    (getWord lexRun "run" "NN" none none).isSome :=
  ⟨by decide, c2_gold_simple_get_word_some lexRun "run" "NN" "ɹˈʌn" none (by decide)⟩

/-- The parent-tag mapping coincides with the specification's wording. -/
theorem getParentTag_eq_spec (tag : String) : getParentTag tag = getParentTagSpec tag := by
  unfold getParentTag getParentTagSpec
  split_ifs <;> simp_all

/-- The exact-tag → parent-tag → `DEFAULT` dispatch chains coincide. -/
theorem dispatch_eq (m : List (String × Option String)) (t : String) :
    (match lookupA m t with
     | some (some ps) => some ps
     | _ =>
       match lookupA m (getParentTag t) with
       | some (some ps) => some ps
       | _ => (lookupA m "DEFAULT").bind id)
    = (match lookupA m t with
       | some (some ps) => some ps
       | _ =>
         match lookupA m (getParentTagSpec t) with
         | some (some ps) => some ps
         | _ =>
           match lookupA m "DEFAULT" with
           | some (some ps) => some ps
           | _ => none) := by
  rw [getParentTag_eq_spec]
  rcases lookupA m t with _ | (_ | ps1) <;>
    rcases lookupA m (getParentTagSpec t) with _ | (_ | ps2) <;>
      rcases lookupA m "DEFAULT" with _ | (_ | ps3) <;> rfl

/-- C4: tag dispatch on tagged entries follows exact tag → parent tag →
`DEFAULT`, with the tag overridden to `None` when the context's future vowel
is unknown and the entry has a `None` key. -/
theorem c4_resolve_phonemes_dispatch (m : List (String × Option String))
    (tag : String) (ctx : Option TokenContext) :
    resolvePhonemes (PhonemeEntry.Tagged m) tag ctx = resolvePhonemesSpec m tag ctx := by
  unfold resolvePhonemes resolvePhonemesSpec
  cases ctx with
  | none => exact dispatch_eq m tag
  | some c =>
    simp only [Option.isNone_iff_eq_none]
    by_cases h : c.future_vowel = none ∧ (lookupA m "None").isSome
    · rw [if_pos h]
      exact dispatch_eq m "None"
    · rw [if_neg h]
      exact dispatch_eq m tag

/-- C7 counterexample: for `in` with tag `IN` and *unknown* future vowel the
special-case handler returns the *stressed* form `ˈɪn`, not the unstressed
`ɪn` the claim predicts. -/
theorem c7_counterexample :
    getSpecialCase lex0 "in" "IN" none (some ⟨none, false⟩) = some ("ˈɪn", 4) ∧
    ("ˈɪn" : String) ≠ "ɪn" := by
  refine ⟨by decide, by decide⟩

/-- C7 amended: for `in`/`In` with any tag, and `IN` with tag ≠ `NNP`, the
special-case handler returns `ˈɪn` when the future vowel is unknown or the
tag is not `IN`, and the unstressed `ɪn` exactly when the tag is `IN` and
the future vowel is known. -/
theorem c7_in_special_case (lex : Lexicon) (tag : String) (stress : Option ℚ)
    (ctx : Option TokenContext) (word : String)
    (hw : word = "in" ∨ word = "In" ∨ (word = "IN" ∧ tag ≠ "NNP")) :
    getSpecialCase lex word tag stress ctx =
      some (if (ctx.bind (·.future_vowel)).isNone ∨ tag ≠ "IN" then "ˈɪn" else "ɪn", 4) := by
  rcases hw with rfl | rfl | ⟨rfl, htag⟩
  · have e1 : lookupA addSymbols "in" = none := by decide
    have e2 : lookupA symbols "in" = none := by decide
    have e3 : ("in".data.contains '.') = false := by decide
    have e4 : toLowerS "in" = "in" := by decide
    simp [getSpecialCase, e1, e2, e3, e4]
    split_ifs <;> decide
  · have e1 : lookupA addSymbols "In" = none := by decide
    have e2 : lookupA symbols "In" = none := by decide
    have e3 : ("In".data.contains '.') = false := by decide
    have e4 : toLowerS "In" = "in" := by decide
    simp [getSpecialCase, e1, e2, e3, e4]
    split_ifs <;> decide
  · have e1 : lookupA addSymbols "IN" = none := by decide
    have e2 : lookupA symbols "IN" = none := by decide
    have e3 : ("IN".data.contains '.') = false := by decide
    have e4 : toLowerS "IN" = "in" := by decide
    simp [getSpecialCase, e1, e2, e3, e4, htag]
    split_ifs <;> decide

/-- C7 witness: with tag `IN` and a known future vowel the handler returns
the unstressed form. -/
theorem c7_witness :
    getSpecialCase lex0 "in" "IN" none (some ⟨some true, false⟩) = some ("ɪn", 4) := by
  have h := c7_in_special_case lex0 "IN" none (some ⟨some true, false⟩) "in" (Or.inl rfl)
  simpa using h

end Misaki
